import Mathlib

/-!
Verification development for the RSS feed enrichment pipeline
(`api/core/fetchers`, `api/core/processor.py`, `api/core/extractors.py`,
`api/core/utils.py`, `api/core/cache.py`, `api/routes.py`).

Each Python function relevant to the checked properties is shallowly
embedded as an executable Lean definition.  External effects (HTTP
responses, HTML parsing results, wall-clock time, the on-disk cache
store) are passed in explicitly as parameters or state.
-/

namespace RssFeed

/-! ## Cascade fetcher (`api/core/fetchers/fetchers.py`) -/

/-- The configuration flags and availability probes consumed by the
`enabled` lambdas of `FETCH_METHODS`:
`Config.USE_PLAYWRIGHT / USE_JINA / USE_CLOUDSCRAPER` and the
module-level `PLAYWRIGHT_AVAILABLE` / `CLOUDSCRAPER_AVAILABLE` import
probes. -/
structure FetchConfig where
  usePlaywright : Bool
  useJina : Bool
  useCloudscraper : Bool
  playwrightAvailable : Bool
  cloudscraperAvailable : Bool
deriving DecidableEq, Repr

/-- The `enabled` lambda of each entry of `FETCH_METHODS`, keyed by the
dictionary key. An unknown key is never enabled. -/
def methodEnabled (cfg : FetchConfig) : String → Bool
  | "playwright" => cfg.usePlaywright && cfg.playwrightAvailable
  | "jina" => cfg.useJina
  | "cloudscraper" => cfg.useCloudscraper && cfg.cloudscraperAvailable
  | _ => false

/-- The keys of the `FETCH_METHODS` dictionary literal, in its insertion
order (Python 3.7+ dictionaries iterate in insertion order):
`"playwright"`, then `"jina"`, then `"cloudscraper"`. -/
def FETCH_METHODS : List String := ["playwright", "jina", "cloudscraper"]

/-- ASCII case folding of one character (the fragment of Python
`str.lower()` relevant to the method keys and image-source words
compared here). -/
def pyCharLower (c : Char) : Char :=
  if 65 ≤ c.toNat && c.toNat ≤ 90 then Char.ofNat (c.toNat + 32) else c

/-- Python `s.lower()`. -/
def pyLower (s : String) : String := String.mk (s.data.map pyCharLower)

/-- A strategy outcome for one fixed URL: `some html` models the
strategy function returning normally, `none` models it raising.  (All
three strategy functions — `fetch_with_jina`, `fetch_with_cloudscraper`,
`fetch_with_playwright` — either return a string that passed their
minimum-length check or raise; none of them returns `None`.) -/
abbrev Outcomes := String → Option String

/-- The `methods` list built by the first half of
`fetch_content_cascade`: with a truthy `preferred_method` the key is
lower-cased and looked up in `FETCH_METHODS` ignoring the `enabled`
flag; otherwise the enabled methods are collected in dictionary order. -/
def selectMethods (cfg : FetchConfig) (preferred : Option String) : List String :=
  match preferred with
  | some p =>
      if p = "" then FETCH_METHODS.filter (methodEnabled cfg)
      else if FETCH_METHODS.contains (pyLower p) then [pyLower p] else []
  | none => FETCH_METHODS.filter (methodEnabled cfg)

/-- The `for method in methods: try: return method["func"](url)` loop:
return the first strategy outcome that does not raise; `none` when every
attempted strategy raised. -/
def firstSuccess (outcome : Outcomes) : List String → Option String
  | [] => none
  | m :: ms =>
      match outcome m with
      | some s => some s
      | none => firstSuccess outcome ms

/-- `fetch_content_cascade(url, preferred_method)`; `Except.error ()` is
the `RuntimeError("Aucune méthode de récupération activée")` raised when
the `methods` list is empty, `Except.ok none` is the final `return None`
after every attempted strategy failed. -/
def fetchContentCascade (cfg : FetchConfig) (outcome : Outcomes)
    (preferred : Option String) : Except Unit (Option String) :=
  let methods := selectMethods cfg preferred
  if methods = [] then Except.error ()
  else Except.ok (firstSuccess outcome methods)

/-- The strategy order asserted by the specification: readability
service (Jina) first, then hardened HTTP (cloudscraper), then headless
browser (Playwright). -/
def specPriorityOrder : List String := ["jina", "cloudscraper", "playwright"]

/-- The cascade as the specification describes it: try the
enabled-and-available strategies in `specPriorityOrder`, first success
wins. -/
def specCascade (cfg : FetchConfig) (outcome : Outcomes) : Option String :=
  firstSuccess outcome (specPriorityOrder.filter (methodEnabled cfg))

/-- A configuration with every strategy enabled and available. -/
def cfgAllOn : FetchConfig :=
  { usePlaywright := true, useJina := true, useCloudscraper := true,
    playwrightAvailable := true, cloudscraperAvailable := true }

/-- Outcomes in which every strategy succeeds, with distinct contents. -/
def outcomesDistinct : Outcomes
  | "playwright" => some "P"
  | "jina" => some "J"
  | "cloudscraper" => some "C"
  | _ => none

/-- A configuration in which Jina is disabled and the other two
strategies are enabled and available. -/
def cfgJinaOff : FetchConfig :=
  { usePlaywright := true, useJina := false, useCloudscraper := true,
    playwrightAvailable := true, cloudscraperAvailable := true }

end RssFeed

namespace RssFeed

/-! ## Feed cache (`api/core/cache.py`) -/

/-- `cache_key_from_url(url, extra)`.  The SHA-1 hex digest of the
fingerprint string `f"{url}|{extra}"` is modelled by the fingerprint
string itself (the digest is a fixed injective-modulo-collisions
function of it; no claim depends on collisions). -/
def cacheKeyFromUrl (url : String) (extra : String) : String :=
  url ++ "|" ++ extra ++ ".xml"

/-- The on-disk cache directory: for each file name, the stored bytes
and the file's mtime (seconds), or `none` when the file does not
exist. -/
abbrev CacheStore := String → Option (List Nat × Int)

/-- `CACHE_TTL = timedelta(hours=2)`, in seconds. -/
def CACHE_TTL : Int := 7200

/-- The body of `get_cached_feed` for an arbitrary cache file name
`key`: miss when the file does not exist, miss when
`datetime.now() - mtime > CACHE_TTL`, otherwise the stored bytes. -/
def readCache (store : CacheStore) (now : Int) (key : String) : Option (List Nat) :=
  match store key with
  | none => none
  | some (content, mtime) => if now - mtime > CACHE_TTL then none else some content

/-- The body of `save_cached_feed` for an arbitrary cache file name
`key`: overwrite the file with `content`; its mtime becomes the write
time. -/
def writeCache (store : CacheStore) (now : Int) (key : String)
    (content : List Nat) : CacheStore :=
  fun k => if k = key then some (content, now) else store k

/-- `get_cached_feed(url)`: the key is always built with the default
`extra = ""`. -/
def getCachedFeed (store : CacheStore) (now : Int) (url : String) : Option (List Nat) :=
  readCache store now (cacheKeyFromUrl url "")

/-- `save_cached_feed(url, content)`: the key is always built with the
default `extra = ""`. -/
def saveCachedFeed (store : CacheStore) (now : Int) (url : String)
    (content : List Nat) : CacheStore :=
  writeCache store now (cacheKeyFromUrl url "") content

/-! ## Utilities (`api/core/utils.py`) -/

/-- The character class of the regex
`[\x00-\x08\x0B\x0C\x0E-\x1F\x7F]` removed by `clean_html` (the NUL
removed by the preceding `replace` is in `\x00-\x08`). -/
def isStrippedCtrl (c : Char) : Bool :=
  c.toNat ≤ 0x08 || c.toNat = 0x0B || c.toNat = 0x0C ||
  (0x0E ≤ c.toNat && c.toNat ≤ 0x1F) || c.toNat = 0x7F

/-- `clean_html(html)`: placeholder for falsy input, otherwise remove
the control characters of `isStrippedCtrl`. -/
def cleanHtml (html : String) : String :=
  if html = "" then "<p>Contenu non disponible</p>"
  else String.mk (html.data.filter (fun c => !isStrippedCtrl c))

/-- The whitespace stripped by Python `str.strip()` with no argument
(ASCII fragment; the further Unicode whitespace plays no role here). -/
def isPySpace (c : Char) : Bool :=
  c = ' ' || c = '\t' || c = '\n' || c = '\x0d' || c.toNat = 0x0B || c.toNat = 0x0C

/-- Python `s.strip()`: drop `isPySpace` characters from both ends. -/
def pyStrip (s : String) : String :=
  String.mk (((s.data.dropWhile isPySpace).reverse.dropWhile isPySpace).reverse)

/-- The character class kept by `re.sub(r"[^\w\s\-éèêàâùûôîç]", "", tag)`:
word characters (modelled as ASCII alphanumerics and underscore),
whitespace, hyphen, and the listed accented letters. -/
def isTagKeepChar (c : Char) : Bool :=
  c.isAlphanum || c = '_' || isPySpace c || c = '-' ||
  c ∈ ['é', 'è', 'ê', 'à', 'â', 'ù', 'û', 'ô', 'î', 'ç']

/-- `clean_tag(tag)`: `None` for falsy input; strip; reject when the
stripped length is outside `[3, 50]`; drop the characters outside
`isTagKeepChar`; return the re-stripped result, or `None` when it is
empty. -/
def cleanTag (tag : String) : Option String :=
  if tag = "" then none
  else
    let t := pyStrip tag
    if t.length < 3 || 50 < t.length then none
    else
      let t2 := pyStrip (String.mk (t.data.filter isTagKeepChar))
      if t2 = "" then none else some t2

/-! ## Entry processing (`api/core/processor.py`) -/

/-- One parsed feed entry, as `process_entry` reads it: `none` in an
optional field models the key being absent from the `feedparser` entry.
`tagTerms` is the list `[tag.term for tag in entry.tags if
hasattr(tag, "term")]`; `publishedParsed` is the publish date obtained
from `entry.published_parsed` (the best-effort `datetime(*t[:6])`
construction is modelled as the resulting date value, `none` covering
both an absent/falsy field and the caught `TypeError`/`ValueError`).
Dates are modelled as integers ordered like Python `datetime` values,
with `0` playing `datetime.min`. -/
structure FeedEntry where
  title : Option String
  link : Option String
  summary : Option String
  description : Option String
  tagTerms : List String
  publishedParsed : Option Nat
deriving DecidableEq, Repr

/-- The results of the three extractor calls on the successfully
fetched `raw_html`: `extract_article_content`, `extract_images`
(irrelevant to the checked claims, kept abstract as a triple of
optional URLs), and `extract_tags`.  The extractors never raise (each
catches internally), so a successful fetch reaches `method_used =
"cascade"` with exactly these values. -/
structure CascadeSuccess where
  content : String
  articleImage : Option String
  siteLogo : Option String
  favicon : Option String
  tags : List String
deriving DecidableEq, Repr

/-- The record returned by `process_entry` (the Python dict). `id` is
`hashlib.sha256(link.encode()).hexdigest()`, modelled as the link
itself (a fixed injective-modulo-collisions function of it). -/
structure EntryRecord where
  id : String
  title : String
  link : String
  content : String
  pubDate : Option Nat
  articleImage : Option String
  siteLogo : Option String
  favicon : Option String
  tags : List String
  method : String
deriving DecidableEq, Repr

/-- `entry.get("summary", entry.get("description", ""))`. -/
def rawSummaryOf (e : FeedEntry) : String :=
  e.summary.getD (e.description.getD "")

/-- The local variables of `process_entry` set by either the success
path or the `except` fallback, before the final dict is assembled. -/
structure PreRecord where
  content : String
  articleImage : Option String
  siteLogo : Option String
  favicon : Option String
  tags : List String
  method : String
deriving DecidableEq, Repr

/-- The `except` branch of `process_entry`: fall back to the RSS
summary when it is truthy with raw `len` above 50 (wrapping it in a
paragraph when it holds no `<`), otherwise to the placeholder; the
images are nulled and the tags are the raw `rss_categories`. -/
def fallbackPre (e : FeedEntry) : PreRecord :=
  let rawSummary := rawSummaryOf e
  if rawSummary ≠ "" && 50 < rawSummary.length then
    { content :=
        if rawSummary.data.contains '<' then rawSummary
        else "<p>" ++ rawSummary ++ "</p>",
      method := "rss_summary",
      articleImage := none, siteLogo := none, favicon := none,
      tags := e.tagTerms }
  else
    { content := "<p>Contenu non disponible</p>",
      method := "unavailable",
      articleImage := none, siteLogo := none, favicon := none,
      tags := e.tagTerms }

/-- The `try`/`except` of `process_entry`: the extractor results on
success, the fallback on any exception. -/
def processPre (e : FeedEntry) (tryOutcome : Option CascadeSuccess) :
    PreRecord :=
  match tryOutcome with
  | some s =>
      { content := s.content, method := "cascade",
        articleImage := s.articleImage, siteLogo := s.siteLogo,
        favicon := s.favicon, tags := s.tags }
  | none => fallbackPre e

/-- `process_entry(entry, ...)`.  `tryOutcome` is the result of the
inner `try` block: `some s` when `fetch_content_cascade` returned a
truthy string and the extractors produced `s`, `none` when the block
raised (cascade `RuntimeError`, the `ValueError` on a falsy fetch
result, or any other exception), which lands in the summary fallback.
`none` as the overall result is the `return None` for a missing link
(the outer `except` is unreachable in this model: nothing after the
fallback raises). -/
def processEntry (e : FeedEntry) (tryOutcome : Option CascadeSuccess) :
    Option EntryRecord :=
  let title := e.title.getD "Sans titre"
  let link := e.link.getD ""
  if link = "" then none
  else
    let r := processPre e tryOutcome
    some
      { id := link, title := title, link := link,
        content := cleanHtml r.content,
        pubDate := e.publishedParsed,
        articleImage := r.articleImage, siteLogo := r.siteLogo,
        favicon := r.favicon, tags := r.tags, method := r.method }

/-! ## Tag extraction (`api/core/extractors.py`, `extract_tags`) -/

/-- Lexicographic strict comparison of code-point sequences, the order
Python uses to compare `str` values. -/
def natListLt : List Nat → List Nat → Bool
  | _, [] => false
  | [], _ :: _ => true
  | a :: as, b :: bs => a < b || (a == b && natListLt as bs)

/-- The code points of a string. -/
def strKey (s : String) : List Nat := s.data.map Char.toNat

/-- Python `a <= b` on strings: `b` is not strictly below `a`. -/
def strLe (a b : String) : Prop := natListLt (strKey b) (strKey a) = false

instance : DecidableRel strLe := fun _ _ => instDecidableEqBool _ _

/-- One insertion step of an ascending insertion sort under `strLe`
(the canonical order of Python `sorted` on strings). -/
def tagInsert (x : String) : List String → List String
  | [] => [x]
  | y :: ys =>
      if natListLt (strKey y) (strKey x) then y :: tagInsert x ys
      else x :: y :: ys

/-- Ascending insertion sort under `strLe`, modelling Python
`sorted` on a list of strings. -/
def tagSort : List String → List String
  | [] => []
  | x :: xs => tagInsert x (tagSort xs)

/-- Python `s.split(",")` (on the character list). -/
def splitCommaAux : List Char → List Char → List (List Char)
  | [], acc => [acc.reverse]
  | c :: cs, acc =>
      if c = ',' then acc.reverse :: splitCommaAux cs []
      else splitCommaAux cs (c :: acc)

/-- Python `s.split(",")`: like Python, the empty string splits to
`[""]`. -/
def pySplitComma (s : String) : List String :=
  (splitCommaAux s.data []).map String.mk

/-- The pre-parsed tag sources that `extract_tags` queries from the
soup: the `content` attribute of the first `meta name="keywords"`
(`some ""` covers both an empty and an absent attribute, both falsy in
Python), the `content` attributes of the `meta property="article:tag"`
elements, and the stripped visible texts of the anchors whose class
matches the tag/category/label/topic pattern, in document order. -/
structure TagDoc where
  metaKeywords : Option String
  articleTagMetas : List String
  tagLinkTexts : List String
deriving DecidableEq, Repr

/-- `extract_tags(html, rss_categories)` on its normal path (bs4
available, truthy html, no internal exception).  The Python `set` of
raw tags is modelled as a list with duplicates: the final
`sorted(set(cleaned_tags))[:MAX]` depends only on the set of cleaned
tags, so the result is identical.  (The `except` path, which returns
the raw set in set-iteration order, is not modelled; the checked
degradation path is `process_entry`'s own fallback.) -/
def extractTagsCleaned (doc : TagDoc) (rssCategories : List String) :
    List String :=
  let fromKeywords :=
    match doc.metaKeywords with
    | some c => if c ≠ "" then (pySplitComma c).map pyStrip else []
    | none => []
  let fromArticleMetas := (doc.articleTagMetas.filter (· ≠ "")).map pyStrip
  let fromLinks :=
    (doc.tagLinkTexts.take 10).filter (fun t => t ≠ "" && t.length < 30)
  let raw := rssCategories ++ fromKeywords ++ fromArticleMetas ++ fromLinks
  raw.filterMap cleanTag

/-- The final `sorted(set(cleaned_tags))[:Config.MAX_TAGS_PER_ARTICLE]`
of `extract_tags`. -/
def extractTags (doc : TagDoc) (rssCategories : List String) (maxTags : Nat) :
    List String :=
  (tagSort (extractTagsCleaned doc rssCategories).dedup).take maxTags

/-! ## Pipeline output ordering (`api/routes.py`, step 5) -/

/-- The sort key of `processed.sort(key=lambda x: x["pub_date"] if
x["pub_date"] else datetime.min, reverse=True)`: `datetime.min` is the
least date, modelled as `0`. -/
def sortKeyOf (r : EntryRecord) : Nat := r.pubDate.getD 0

/-- The ordering used by the reverse sort: `a` may precede `b` when the
key of `b` is at most the key of `a`. -/
def keyGE (a b : EntryRecord) : Prop := sortKeyOf b ≤ sortKeyOf a

instance : DecidableRel keyGE := fun _ _ => Nat.decLe _ _

instance : IsTotal EntryRecord keyGE := ⟨fun a b => le_total (sortKeyOf b) (sortKeyOf a)⟩

instance : IsTrans EntryRecord keyGE := ⟨fun _ _ _ h1 h2 => le_trans h2 h1⟩

/-- `processed.sort(key=..., reverse=True)`: Python's sort is stable,
and a stable descending sort coincides with insertion sort under
`keyGE` (ties keep list order, which is the order in which
`as_completed` delivered the results). -/
def pySortDesc (l : List EntryRecord) : List EntryRecord :=
  l.insertionSort keyGE

/-! ## Playwright gate (`api/core/fetchers/playwright.py`) -/

/-- The phases of one thread calling `fetch_with_playwright`: not yet
called, blocked on `with _playwright_lock`, inside the gated rendering
block, returned. -/
inductive PwPhase
  | idle
  | waiting
  | rendering
  | finished
deriving DecidableEq, Repr

/-- The process state for `n` worker threads: each thread's phase plus
the state of the module-level `_playwright_lock` (the identity of the
holder, `none` when free). -/
structure PwState (n : Nat) where
  phase : Fin n → PwPhase
  lockHolder : Option (Fin n)

/-- Initially no thread has called the fetcher and the lock is free. -/
def pwInit (n : Nat) : PwState n :=
  { phase := fun _ => PwPhase.idle, lockHolder := none }

/-- The interleaving semantics of `fetch_with_playwright`: a thread
enters and blocks on the lock (`call`); a blocked thread acquires the
free lock and starts the rendering block (`acquire`); a rendering
thread leaves the `with` block, releasing the lock (`release`, covering
both normal return and the re-raised exception).  The entire rendering
body sits between `acquire` and `release`. -/
inductive PwStep {n : Nat} : PwState n → PwState n → Prop
  | call (s : PwState n) (i : Fin n) :
      s.phase i = PwPhase.idle →
      PwStep s { phase := Function.update s.phase i PwPhase.waiting,
                 lockHolder := s.lockHolder }
  | acquire (s : PwState n) (i : Fin n) :
      s.phase i = PwPhase.waiting → s.lockHolder = none →
      PwStep s { phase := Function.update s.phase i PwPhase.rendering,
                 lockHolder := some i }
  | release (s : PwState n) (i : Fin n) :
      s.phase i = PwPhase.rendering →
      PwStep s { phase := Function.update s.phase i PwPhase.finished,
                 lockHolder := none }

/-- The states reachable by interleaving the worker threads. -/
def PwReachable {n : Nat} (s : PwState n) : Prop :=
  Relation.ReflTransGen PwStep (pwInit n) s

/-! ## URL resolution (`api/core/utils.py`, `make_absolute_url`) -/

/-- The characters allowed in a URL scheme after its leading letter
(`urllib.parse`): letters, digits, `+`, `-`, `.`. -/
def isSchemeChar (c : Char) : Bool :=
  c.isAlpha || c.isDigit || c = '+' || c = '-' || c = '.'

/-- Split off a leading `scheme:` in the manner of `urllib.parse`:
`some (scheme, rest)` when the URL starts with a letter followed by
scheme characters and a colon. -/
def splitScheme (u : String) : Option (String × String) :=
  let pre := u.data.takeWhile isSchemeChar
  match u.data.dropWhile isSchemeChar with
  | ':' :: rest =>
      match pre with
      | c :: _ => if c.isAlpha then some (String.mk pre, String.mk rest) else none
      | [] => none
  | _ => none

/-- Whether the URL carries a scheme (is absolute). -/
def hasScheme (u : String) : Bool := (splitScheme u).isSome

/-- A character ending the network-location component. -/
def isNetlocEnd (c : Char) : Bool := c = '/' || c = '?' || c = '#'

/-- `urlparse(u).scheme` (empty when there is none). -/
def urlScheme (u : String) : String :=
  match splitScheme u with
  | some (s, _) => s
  | none => ""

/-- The part of the URL after the scheme colon, or the whole URL when
there is no scheme. -/
def afterScheme (u : String) : String :=
  match splitScheme u with
  | some (_, rest) => rest
  | none => u

/-- Whether the string starts with `//`. -/
def startsSlashSlash (u : String) : Bool :=
  match u.data with
  | '/' :: '/' :: _ => true
  | _ => false

/-- Whether the string starts with `/`. -/
def startsSlash (u : String) : Bool :=
  match u.data with
  | '/' :: _ => true
  | _ => false

/-- `urlparse(u).netloc`: present only after a `//`. -/
def urlNetloc (u : String) : String :=
  match (afterScheme u).data with
  | '/' :: '/' :: tail => String.mk (tail.takeWhile (fun c => !isNetlocEnd c))
  | _ => ""

/-- `urlparse(u).path` (query and fragment are kept as part of the
path in this model; they play no role in the checked claims). -/
def urlPath (u : String) : String :=
  match (afterScheme u).data with
  | '/' :: '/' :: tail => String.mk (tail.dropWhile (fun c => !isNetlocEnd c))
  | rest => String.mk rest

/-- The directory of a path: everything up to and including the last
`/`, empty when the path has no `/`. -/
def dirOf (p : String) : String :=
  String.mk (((p.data.reverse).dropWhile (fun c => c ≠ '/')).reverse)

/-- `urllib.parse.urljoin(base, url)` on the cases arising here: a URL
with a scheme is returned as is; a protocol-relative URL inherits the
base scheme; a root-relative URL inherits scheme and netloc; a relative
path is joined to the directory of the base path.  Dot-segment
normalisation is not modelled (it does not change whether the result is
absolute). -/
def pyUrljoin (base url : String) : String :=
  if hasScheme url then url
  else
    let bscheme := urlScheme base
    let bnetloc := urlNetloc base
    let bpath := urlPath base
    if startsSlashSlash url then
      if bscheme = "" then url else bscheme ++ ":" ++ url
    else
      let root :=
        if bscheme = "" then (if bnetloc = "" then "" else "//" ++ bnetloc)
        else bscheme ++ "://" ++ bnetloc
      if startsSlash url then root ++ url
      else
        let d := dirOf bpath
        if d = "" then
          if bscheme = "" && bnetloc = "" then root ++ url else root ++ "/" ++ url
        else root ++ d ++ url

/-- `make_absolute_url(url, base_url)`. -/
def makeAbsoluteUrl (url baseUrl : String) : String :=
  if url = "" then "" else pyUrljoin baseUrl url

/-! ## Image extraction (`api/core/extractors.py`, `extract_images`) -/

/-- Whether the first list is an initial segment of the second. -/
def leadsWith : List Char → List Char → Bool
  | [], _ => true
  | _ :: _, [] => false
  | a :: as, b :: bs => a == b && leadsWith as bs

/-- Whether `needle` occurs as a substring of `hay` (Python `in`). -/
def containsSub (hay needle : String) : Bool :=
  hay.data.tails.any (fun t => leadsWith needle.data t)

/-- The blocked substrings of the third article-image rule. -/
def blockedImgWords : List String := ["icon", "logo", "avatar", "emoji"]

/-- The `src` passes `not any(x in src.lower() for x in [...])`. -/
def imgSrcAllowed (src : String) : Bool :=
  !(blockedImgWords.any (fun w => containsSub (pyLower src) w))

/-- The pre-parsed image sources that `extract_images` queries from the
soup.  For the meta/link fields, `some c` means the element exists and
`c` is its `content`/`href`/`src` attribute (`some ""` covers both an
empty and an absent attribute, both falsy where the code tests them).
`articleOrMainImgSrcs` lists the `src` values of the `img[src]`
descendants of the first `article` element — or, when there is none, of
the first `main` element — in document order (empty when neither
container exists; the code only ever reads the first element). -/
structure ImgDoc where
  ogImage : Option String
  twitterImage : Option String
  articleOrMainImgSrcs : List String
  ogLogo : Option String
  headerLogoImgSrc : Option String
  appleIconHref : Option String
  iconHref : Option String
deriving DecidableEq, Repr

/-- The dictionary returned by `extract_images`.  `none` is Python
`None`; a `some ""` value is falsy in Python and treated as unset by
the later `if not result[...]` tests, exactly as modelled. -/
structure ImagesOut where
  articleImage : Option String
  siteLogo : Option String
  favicon : Option String
deriving DecidableEq, Repr

/-- Python truthiness of a `result[...]` slot (`None` and `""` falsy). -/
def imgTruthy (o : Option String) : Bool := o.getD "" ≠ ""

/-- Priority 1 of the article image: the Open Graph meta (`og:image`
found with truthy content). -/
def ogImageStep (doc : ImgDoc) (baseUrl : String) : Option String :=
  match doc.ogImage with
  | some c => if c ≠ "" then some (makeAbsoluteUrl c baseUrl) else none
  | none => none

/-- Priority 2 of the article image: the Twitter Card meta, consulted
only when the slot is still falsy. -/
def twitterImageStep (doc : ImgDoc) (baseUrl : String) (prev : Option String) :
    Option String :=
  if imgTruthy prev then prev
  else
    match doc.twitterImage with
    | some c => if c ≠ "" then some (makeAbsoluteUrl c baseUrl) else prev
    | none => prev

/-- Priority 3 of the article image: the first `img[src]` of the
`article`-or-`main` container, kept only when its truthy `src` avoids
the blocked words. -/
def articleImgStep (doc : ImgDoc) (baseUrl : String) (prev : Option String) :
    Option String :=
  if imgTruthy prev then prev
  else
    match doc.articleOrMainImgSrcs.head? with
    | some src =>
        if src ≠ "" && imgSrcAllowed src then
          some (makeAbsoluteUrl src baseUrl)
        else prev
    | none => prev

/-- Priority 1 of the site logo: the `og:logo` meta. -/
def ogLogoStep (doc : ImgDoc) (baseUrl : String) : Option String :=
  match doc.ogLogo with
  | some c => if c ≠ "" then some (makeAbsoluteUrl c baseUrl) else none
  | none => none

/-- Priority 2 of the site logo: the header logo image (the code does
not test the `src` for truthiness here). -/
def headerLogoStep (doc : ImgDoc) (baseUrl : String) (prev : Option String) :
    Option String :=
  if imgTruthy prev then prev
  else
    match doc.headerLogoImgSrc with
    | some src => some (makeAbsoluteUrl src baseUrl)
    | none => prev

/-- Priority 1 of the favicon: the apple-touch-icon link. -/
def appleIconStep (doc : ImgDoc) (baseUrl : String) : Option String :=
  match doc.appleIconHref with
  | some h => if h ≠ "" then some (makeAbsoluteUrl h baseUrl) else none
  | none => none

/-- Priority 2 of the favicon: the generic icon link. -/
def iconStep (doc : ImgDoc) (baseUrl : String) (prev : Option String) :
    Option String :=
  if imgTruthy prev then prev
  else
    match doc.iconHref with
    | some h => if h ≠ "" then some (makeAbsoluteUrl h baseUrl) else prev
    | none => prev

/-- The favicon fallback: the synthesised
`{scheme}://{netloc}/favicon.ico`. -/
def faviconDefaultStep (baseUrl : String) (prev : Option String) :
    Option String :=
  if imgTruthy prev then prev
  else some ((urlScheme baseUrl ++ "://" ++ urlNetloc baseUrl) ++ "/favicon.ico")

/-- The post-hoc logo fallback: use the favicon as logo when the logo
slot is still falsy. -/
def logoFallbackStep (logo favicon : Option String) : Option String :=
  if !imgTruthy logo && imgTruthy favicon then favicon else logo

/-- `extract_images(html, base_url)` on its normal path (bs4 available,
truthy html, no internal exception), composing the per-block steps in
source order. -/
def extractImages (doc : ImgDoc) (baseUrl : String) : ImagesOut :=
  let a :=
    articleImgStep doc baseUrl
      (twitterImageStep doc baseUrl (ogImageStep doc baseUrl))
  let l := headerLogoStep doc baseUrl (ogLogoStep doc baseUrl)
  let f :=
    faviconDefaultStep baseUrl (iconStep doc baseUrl (appleIconStep doc baseUrl))
  { articleImage := a, siteLogo := logoFallbackStep l f, favicon := f }

/-- The container-image rule as the specification words it: the first
`img` in the article/main container **whose `src` does not contain a
blocked word** (searching past blocked images). -/
def specContainerImg (doc : ImgDoc) (baseUrl : String) : Option String :=
  (doc.articleOrMainImgSrcs.find? (fun src => src ≠ "" && imgSrcAllowed src)).map
    (fun src => makeAbsoluteUrl src baseUrl)

/-- The container-image rule as coded: only the head of the image list
is inspected, and nothing is yielded when its `src` is blocked. -/
def codeContainerImg (doc : ImgDoc) (baseUrl : String) : Option String :=
  match doc.articleOrMainImgSrcs.head? with
  | some src =>
      if src ≠ "" && imgSrcAllowed src then some (makeAbsoluteUrl src baseUrl)
      else none
  | none => none

/-- The Twitter Card step of the article-image priority chain,
parameterised by the container-image rule. -/
def articleImageChainTwitter (rule3 : ImgDoc → String → Option String)
    (doc : ImgDoc) (baseUrl : String) : Option String :=
  match doc.twitterImage with
  | some c =>
      if c ≠ "" then some (makeAbsoluteUrl c baseUrl)
      else rule3 doc baseUrl
  | none => rule3 doc baseUrl

/-- The article-image priority chain, parameterised by the
container-image rule: Open Graph meta, else Twitter Card meta, else the
container rule. -/
def articleImageChain (rule3 : ImgDoc → String → Option String)
    (doc : ImgDoc) (baseUrl : String) : Option String :=
  match doc.ogImage with
  | some c =>
      if c ≠ "" then some (makeAbsoluteUrl c baseUrl)
      else articleImageChainTwitter rule3 doc baseUrl
  | none => articleImageChainTwitter rule3 doc baseUrl

/-- The article-image resolution as the specification words it. -/
def specArticleImage (doc : ImgDoc) (baseUrl : String) : Option String :=
  articleImageChain specContainerImg doc baseUrl

/-- The article-image resolution the code performs. -/
def codeArticleImage (doc : ImgDoc) (baseUrl : String) : Option String :=
  articleImageChain codeContainerImg doc baseUrl

/-- A well-formed URL scheme name: non-empty, leading letter, scheme
characters throughout. -/
def validScheme (s : String) : Bool :=
  match s.data with
  | [] => false
  | c :: _ => c.isAlpha && s.data.all isSchemeChar

/-! ## `/api/filter` cache interaction (`api/routes.py`) -/

/-- The query parameters of `/api/filter` that vary between requests. -/
structure FilterParams where
  url : String
  methodExtraction : Option String
  maxEntries : Option Nat
  workers : Nat
deriving DecidableEq, Repr

/-- The cache skeleton of the `filter` route: `cached =
get_cached_feed(url); if cached: return cached`, otherwise run the whole
generation pipeline (steps 1–6, abstracted as `generate`, a function of
the request parameters) and `save_cached_feed(url, rss)`.  Returns the
response body and the cache store after the request.  Note the Python
truthiness test: a cached empty byte string is treated as a miss. -/
def filterHandler (generate : FilterParams → List Nat) (store : CacheStore)
    (now : Int) (p : FilterParams) : List Nat × CacheStore :=
  match getCachedFeed store now p.url with
  | some cached =>
      if cached = [] then
        let rss := generate p
        (rss, saveCachedFeed store now p.url rss)
      else (cached, store)
  | none =>
      let rss := generate p
      (rss, saveCachedFeed store now p.url rss)

/-! ## Concrete inputs used by the verification -/

/-- A control character in the claim's sense: the C0 range and DEL. -/
def isPyCtrl (c : Char) : Bool := c.toNat < 0x20 || c.toNat = 0x7F

/-- A cache directory with no files. -/
def emptyStore : CacheStore := fun _ => none

/-- A concrete generation pipeline whose output depends on the request
parameters. -/
def c9Gen : FilterParams → List Nat := fun p => [p.workers + 1]

/-- A first request for a feed, with default parameters. -/
def c9P1 : FilterParams :=
  { url := "http://feed/a", methodExtraction := none, maxEntries := none,
    workers := 2 }

/-- A second request for the same feed with a different preferred
method, entry cap and worker count. -/
def c9P2 : FilterParams :=
  { url := "http://feed/a", methodExtraction := some "jina",
    maxEntries := some 5, workers := 7 }

/-- An entry whose feed summary is 58 characters long, contains markup
(`<`), and contains a line feed. -/
def ctrlEntry : FeedEntry :=
  { title := some "t", link := some "http://e/a",
    summary := some "<p>Line one\nLine two padded to be quite long indeed ok</p>",
    description := none, tagTerms := [], publishedParsed := none }

/-- An entry with a link but no summary and no description. -/
def noSummaryEntry : FeedEntry :=
  { title := none, link := some "http://e/u", summary := none,
    description := none, tagTerms := [], publishedParsed := none }

/-- The record `process_entry` produces for `noSummaryEntry` when the
fetch fails. -/
def c3WitnessRecord : EntryRecord :=
  { id := "http://e/u", title := "Sans titre", link := "http://e/u",
    content := "<p>Contenu non disponible</p>", pubDate := none,
    articleImage := none, siteLogo := none, favicon := none,
    tags := [], method := "unavailable" }

/-- An entry whose RSS categories are a duplicated two-character tag. -/
def dupShortEntry : FeedEntry :=
  { title := some "t", link := some "http://e/b", summary := none,
    description := none, tagTerms := ["xy", "xy"], publishedParsed := none }

/-- The record `process_entry` produces for `dupShortEntry` when the
fetch fails. -/
def c4WitnessRecord : EntryRecord :=
  { id := "http://e/b", title := "t", link := "http://e/b",
    content := "<p>Contenu non disponible</p>", pubDate := none,
    articleImage := none, siteLogo := none, favicon := none,
    tags := ["xy", "xy"], method := "unavailable" }

/-- A parsed page whose meta keywords hold a four-character candidate
that shrinks below three characters once its special characters are
stripped. -/
def bangDoc : TagDoc :=
  { metaKeywords := some "a!!b", articleTagMetas := [], tagLinkTexts := [] }

/-- A processed record with no publish date (first by feed order). -/
def recNullA : EntryRecord :=
  { id := "a", title := "a", link := "http://e/1", content := "<p>a</p>",
    pubDate := none, articleImage := none, siteLogo := none, favicon := none,
    tags := [], method := "unavailable" }

/-- A second processed record with no publish date. -/
def recNullB : EntryRecord :=
  { id := "b", title := "b", link := "http://e/2", content := "<p>b</p>",
    pubDate := none, articleImage := none, siteLogo := none, favicon := none,
    tags := [], method := "unavailable" }

/-- A processed record with a publish date. -/
def recDated : EntryRecord :=
  { id := "c", title := "c", link := "http://e/3", content := "<p>c</p>",
    pubDate := some 5, articleImage := none, siteLogo := none, favicon := none,
    tags := [], method := "cascade" }

/-- Sixty spaces: truthy in Python, raw length above 50, empty once
stripped. -/
def spaces60 : String := String.mk (List.replicate 60 ' ')

/-- An entry whose summary is sixty spaces. -/
def spacesEntry : FeedEntry :=
  { title := some "t", link := some "http://e/c", summary := some spaces60,
    description := none, tagTerms := [], publishedParsed := none }

/-- The record `process_entry` produces for `spacesEntry` when the
fetch fails. -/
def c6WitnessRecord : EntryRecord :=
  { id := "http://e/c", title := "t", link := "http://e/c",
    content := "<p>" ++ spaces60 ++ "</p>", pubDate := none,
    articleImage := none, siteLogo := none, favicon := none,
    tags := [], method := "rss_summary" }

/-- A page with no image metas whose article container holds a blocked
image followed by an allowed one. -/
def imgDocCx : ImgDoc :=
  { ogImage := none, twitterImage := none,
    articleOrMainImgSrcs := ["logo.png", "photo.jpg"], ogLogo := none,
    headerLogoImgSrc := none, appleIconHref := none, iconHref := none }

/-- Two worker threads, thread 0 having entered the fetcher. -/
def pwS1 : PwState 2 :=
  { phase := Function.update (pwInit 2).phase 0 PwPhase.waiting,
    lockHolder := none }

/-- Two worker threads, thread 0 holding the gate and rendering. -/
def pwS2 : PwState 2 :=
  { phase := Function.update pwS1.phase 0 PwPhase.rendering,
    lockHolder := some 0 }

/-- Every present value of the slot is truthy and absolute. -/
def SomeAbs (o : Option String) : Prop :=
  ∀ u, o = some u → u ≠ "" ∧ hasScheme u = true

/-- Every present truthy value of the slot is absolute (the slot may
hold an empty string, which Python treats as unset). -/
def SomeAbsW (o : Option String) : Prop :=
  ∀ u, o = some u → u ≠ "" → hasScheme u = true

/-! ## Theorems -/

/-- C1: with no preferred strategy, `fetch_content_cascade` attempts
the strategies in the `FETCH_METHODS` dictionary order — Playwright,
then Jina, then cloudscraper — and returns the first success in that
order.  With every strategy enabled, available and succeeding it
therefore returns the Playwright result, while the priority order
asserted by the specification (and by the `[1/3] Jina`, `[2/3]
cloudscraper`, `[3/3] Playwright` labels in the fetchers' own log
messages) would return the Jina result. -/
theorem C1_cascade_order_playwright_first :
    selectMethods cfgAllOn none = ["playwright", "jina", "cloudscraper"] ∧
    fetchContentCascade cfgAllOn outcomesDistinct none = Except.ok (some "P") ∧
    specCascade cfgAllOn outcomesDistinct = some "J" ∧
    specPriorityOrder ≠ FETCH_METHODS :=
  ⟨by decide, rfl, by decide, by decide⟩

/-- C2 counterexample: `"jina"` names a known strategy that is disabled
in the configuration, yet the cascade attempts it (the attempted-method
list is `["jina"]`, not empty) and returns its successful result
instead of failing immediately. -/
theorem C2_counterexample_disabled_preferred_attempted :
    methodEnabled cfgJinaOff "jina" = false ∧
    selectMethods cfgJinaOff (some "jina") = ["jina"] ∧
    fetchContentCascade cfgJinaOff outcomesDistinct (some "jina") =
      Except.ok (some "J") :=
  ⟨by decide, by decide, rfl⟩

/-- C2 amended: when the caller supplies a non-empty preferred strategy
name, the `enabled` flag is ignored: a known name (after lower-casing)
is attempted alone and its outcome returned, whether or not the
strategy is enabled; only an unknown name makes the cascade fail
immediately (with the `RuntimeError`), without attempting anything. -/
theorem C2_preferred_lookup_ignores_enabled (cfg : FetchConfig) (p : String)
    (outcome : Outcomes) (hp : p ≠ "") :
    (FETCH_METHODS.contains (pyLower p) = true →
      selectMethods cfg (some p) = [pyLower p] ∧
      fetchContentCascade cfg outcome (some p) =
        Except.ok (outcome (pyLower p))) ∧
    (FETCH_METHODS.contains (pyLower p) = false →
      selectMethods cfg (some p) = [] ∧
      fetchContentCascade cfg outcome (some p) = Except.error ()) := by
  constructor
  · intro hc
    have hsel : selectMethods cfg (some p) = [pyLower p] := by
      simp only [selectMethods]
      rw [if_neg hp, if_pos hc]
    refine ⟨hsel, ?_⟩
    unfold fetchContentCascade
    rw [hsel]
    simp only [firstSuccess]
    cases outcome (pyLower p) <;> simp [firstSuccess]
  · intro hc
    have hsel : selectMethods cfg (some p) = [] := by
      simp only [selectMethods]
      rw [if_neg hp, if_neg (by rw [hc]; exact Bool.false_ne_true)]
    refine ⟨hsel, ?_⟩
    unfold fetchContentCascade
    rw [hsel]
    simp

/-- C2 witness: the theorem applied to the disabled-Jina configuration
with the mixed-case preferred name `"JINA"`. -/
theorem C2_witness :
    selectMethods cfgJinaOff (some "JINA") = [pyLower "JINA"] ∧
    fetchContentCascade cfgJinaOff outcomesDistinct (some "JINA") =
      Except.ok (outcomesDistinct (pyLower "JINA")) :=
  (C2_preferred_lookup_ignores_enabled cfgJinaOff "JINA" outcomesDistinct
    (by decide)).1 (by decide)

/-- C7: for every source URL and extra discriminator, reading the cache
for the key produced by `cache_key_from_url` after a write at time `t`
returns exactly the stored bytes while `now - t ≤ CACHE_TTL`
(2 hours), returns a miss once `CACHE_TTL < now - t`, and returns a
miss when the key was never written. -/
theorem C7_cache_ttl_roundtrip (store : CacheStore) (t now : Int)
    (url extra : String) (content : List Nat) :
    (now - t ≤ CACHE_TTL →
      readCache (writeCache store t (cacheKeyFromUrl url extra) content) now
        (cacheKeyFromUrl url extra) = some content) ∧
    (CACHE_TTL < now - t →
      readCache (writeCache store t (cacheKeyFromUrl url extra) content) now
        (cacheKeyFromUrl url extra) = none) ∧
    (store (cacheKeyFromUrl url extra) = none →
      readCache store now (cacheKeyFromUrl url extra) = none) := by
  have hk : writeCache store t (cacheKeyFromUrl url extra) content
      (cacheKeyFromUrl url extra) = some (content, t) := by
    unfold writeCache
    rw [if_pos rfl]
  refine ⟨?_, ?_, ?_⟩
  · intro h
    unfold readCache
    rw [hk]
    exact if_neg (not_lt.mpr h)
  · intro h
    unfold readCache
    rw [hk]
    exact if_pos h
  · intro h
    unfold readCache
    rw [h]

/-- C7 witness: a write at time 0 read back at the TTL boundary. -/
theorem C7_witness :
    readCache (writeCache emptyStore 0 (cacheKeyFromUrl "u" "e") [1]) 7200
      (cacheKeyFromUrl "u" "e") = some [1] :=
  (C7_cache_ttl_roundtrip emptyStore 0 7200 "u" "e" [1]).1 (by decide)

/-- C9: the cache key depends on the URL alone (`extra` is always
passed empty), so a request whose URL matches a fresh cache entry is
answered with the cached document even when its preferred method,
entry cap and worker count all differ from those of the request that
generated it. -/
theorem C9_cache_key_ignores_params (gen : FilterParams → List Nat)
    (store : CacheStore) (t now : Int) (p1 p2 : FilterParams)
    (hurl : p2.url = p1.url) (hmiss : getCachedFeed store t p1.url = none)
    (hfresh : now - t ≤ CACHE_TTL) (hne : gen p1 ≠ []) :
    (filterHandler gen store t p1).1 = gen p1 ∧
    (filterHandler gen (filterHandler gen store t p1).2 now p2).1 = gen p1 := by
  have h1 : filterHandler gen store t p1 =
      (gen p1, saveCachedFeed store t p1.url (gen p1)) := by
    unfold filterHandler
    rw [hmiss]
  have hget : getCachedFeed (saveCachedFeed store t p1.url (gen p1)) now p2.url =
      some (gen p1) := by
    have hk : saveCachedFeed store t p1.url (gen p1) (cacheKeyFromUrl p2.url "") =
        some (gen p1, t) := by
      rw [hurl]
      unfold saveCachedFeed writeCache
      rw [if_pos rfl]
    unfold getCachedFeed readCache
    rw [hk]
    exact if_neg (not_lt.mpr hfresh)
  refine ⟨by rw [h1], ?_⟩
  rw [h1]
  unfold filterHandler
  rw [hget]
  simp [hne]

/-- C9 witness: a second request with different parameters served from
the first request's cache entry. -/
theorem C9_witness :
    (filterHandler c9Gen (filterHandler c9Gen emptyStore 0 c9P1).2 100 c9P2).1 =
      c9Gen c9P1 :=
  (C9_cache_key_ignores_params c9Gen emptyStore 0 100 c9P1 c9P2 rfl rfl
    (by decide) (by decide)).2

/-- C5 counterexample: two distinct records without publish dates keep
the order in which the workers delivered them — the sort of step 5 is
stable and the records carry no feed index — so two completion orders
of the same result set produce two different outputs, and the relative
order among null-date entries is not determined by the original feed
index. -/
theorem C5_counterexample_tie_order_is_completion_order :
    pySortDesc [recNullB, recNullA] = [recNullB, recNullA] ∧
    pySortDesc [recNullA, recNullB] = [recNullA, recNullB] ∧
    recNullA ≠ recNullB :=
  ⟨by decide, by decide, by decide⟩

/-- C5 amended: the final output is a permutation of the collected
results, sorted by publish date descending with a missing date treated
as the minimum date (`datetime.min`); provided no present date equals
the minimum, every null-date entry comes after every dated entry.  The
relative order among null-date entries is the collection (completion)
order, not the original feed index. -/
theorem C5_sorted_desc_nulls_last (l : List EntryRecord) :
    (pySortDesc l).Perm l ∧
    (pySortDesc l).Pairwise keyGE ∧
    ((∀ r ∈ l, r.pubDate ≠ some 0) →
      (pySortDesc l).Pairwise
        (fun a b => a.pubDate = none → b.pubDate = none)) := by
  refine ⟨List.perm_insertionSort keyGE l, List.sorted_insertionSort keyGE l, ?_⟩
  intro hpos
  have hs : (pySortDesc l).Pairwise keyGE := List.sorted_insertionSort keyGE l
  refine hs.imp_of_mem ?_
  intro a b ha hb hge hnone
  have hb' : b ∈ l := (List.perm_insertionSort keyGE l).subset hb
  cases hbd : b.pubDate with
  | none => rfl
  | some d =>
      exfalso
      have hd0 : d ≠ 0 := by
        intro h0
        exact hpos b hb' (by rw [hbd, h0])
      have hka : sortKeyOf a = 0 := by simp [sortKeyOf, hnone]
      have hkb : sortKeyOf b = d := by simp [sortKeyOf, hbd]
      have hle : sortKeyOf b ≤ sortKeyOf a := hge
      omega

/-- C5 witness: a dated record sorted ahead of two null-date records. -/
theorem C5_witness :
    (pySortDesc [recNullB, recDated, recNullA]).Pairwise
      (fun a b => a.pubDate = none → b.pubDate = none) :=
  (C5_sorted_desc_nulls_last [recNullB, recDated, recNullA]).2.2 (by decide)

/-- The gate invariant of `fetch_with_playwright`: in every reachable
state, a thread inside the rendering block holds `_playwright_lock`. -/
theorem pwInv_reachable {n : Nat} (s : PwState n) (h : PwReachable s) :
    ∀ i : Fin n, s.phase i = PwPhase.rendering → s.lockHolder = some i := by
  induction h with
  | refl =>
      intro i hi
      exact absurd hi (by simp [pwInit])
  | tail _ hstep ih =>
      intro i hi
      cases hstep with
      | call j hidle =>
          dsimp only at hi ⊢
          by_cases hij : i = j
          · subst hij
            rw [Function.update_same] at hi
            cases hi
          · rw [Function.update_noteq hij] at hi
            exact ih i hi
      | acquire j hw hfree =>
          dsimp only at hi ⊢
          by_cases hij : i = j
          · subst hij
            rfl
          · rw [Function.update_noteq hij] at hi
            have h1 := ih i hi
            rw [hfree] at h1
            cases h1
      | release j hr =>
          dsimp only at hi ⊢
          by_cases hij : i = j
          · subst hij
            rw [Function.update_same] at hi
            cases hi
          · rw [Function.update_noteq hij] at hi
            have h1 := ih i hi
            have h2 := ih j hr
            rw [h1] at h2
            exact absurd (Option.some.inj h2) hij

/-- C10: two concurrent invocations of `fetch_with_playwright` never
execute the rendering step simultaneously: in every state reachable by
interleaving the worker threads, at most one thread is inside the
gated rendering block, because the block is bracketed by acquiring and
releasing the single module-level `_playwright_lock`. -/
theorem C10_playwright_mutual_exclusion {n : Nat} (s : PwState n)
    (h : PwReachable s) (i j : Fin n)
    (hi : s.phase i = PwPhase.rendering) (hj : s.phase j = PwPhase.rendering) :
    i = j := by
  have h1 := pwInv_reachable s h i hi
  have h2 := pwInv_reachable s h j hj
  rw [h1] at h2
  exact Option.some.inj h2

/-- C10 witness: the theorem applied to the reachable state in which
thread 0 of two is rendering. -/
theorem C10_witness : (0 : Fin 2) = (0 : Fin 2) :=
  C10_playwright_mutual_exclusion pwS2
    (Relation.ReflTransGen.tail
      (Relation.ReflTransGen.tail Relation.ReflTransGen.refl
        (PwStep.call (pwInit 2) (0 : Fin 2) rfl))
      (PwStep.acquire pwS1 (0 : Fin 2) rfl rfl))
    0 0 rfl rfl

/-- No character of the unavailable-content placeholder lies in the
stripped control class. -/
theorem placeholderNoStripped :
    ∀ c ∈ ("<p>Contenu non disponible</p>" : String).data,
      isStrippedCtrl c = false := by decide

/-- Every character of `clean_html`'s output is outside the stripped
control class. -/
theorem cleanHtml_no_stripped (s : String) :
    ∀ c ∈ (cleanHtml s).data, isStrippedCtrl c = false := by
  intro c hc
  unfold cleanHtml at hc
  split at hc
  · exact placeholderNoStripped c hc
  · have h := List.mem_filter.mp hc
    simpa using h.2

/-- `clean_html`'s output is non-empty whenever some input character
survives the control filter. -/
theorem cleanHtml_ne_empty (s : String) (c : Char) (hc : c ∈ s.data)
    (hns : isStrippedCtrl c = false) : cleanHtml s ≠ "" := by
  unfold cleanHtml
  split
  · decide
  · intro h
    have hd : s.data.filter (fun c => !isStrippedCtrl c) = [] :=
      congrArg String.data h
    have hm : c ∈ s.data.filter (fun c => !isStrippedCtrl c) :=
      List.mem_filter.mpr ⟨hc, by simp [hns]⟩
    rw [hd] at hm
    cases hm

/-- C3 counterexample: an entry whose 58-character summary contains a
line feed produces a record whose content still contains the line feed
— a control character — because `clean_html` removes only
`\x00-\x08\x0B\x0C\x0E-\x1F\x7F`, keeping tab, LF and CR. -/
theorem C3_counterexample_linefeed_survives :
    ((processEntry ctrlEntry none).map
        (fun r => r.content.data.contains '\n')) = some true ∧
    ((processEntry ctrlEntry none).map
        (fun r => r.content.data.any isPyCtrl)) = some true :=
  ⟨by decide, by decide⟩

/-- C3 amended: for every entry with a link, the stored content
contains no NUL and no control character of the class `clean_html`
strips (C0 except tab/LF/CR, plus DEL); tab, LF and CR may remain.
The content is non-empty on the `rss_summary` and `unavailable`
fallback paths, and on the `cascade` path whenever the extracted
content has at least one character outside the stripped class. -/
theorem C3_content_control_free (e : FeedEntry) (t : Option CascadeSuccess)
    (r : EntryRecord) (h : processEntry e t = some r) :
    (∀ c ∈ r.content.data, isStrippedCtrl c = false) ∧
    (t = none → r.content ≠ "") ∧
    (∀ s, t = some s → (∃ c ∈ s.content.data, isStrippedCtrl c = false) →
      r.content ≠ "") := by
  simp only [processEntry] at h
  split at h
  · cases h
  · rw [Option.some.injEq] at h
    subst h
    refine ⟨fun c hc => cleanHtml_no_stripped _ c hc, ?_, ?_⟩
    · rintro rfl
      simp only [processPre, fallbackPre]
      split
      · split
        next hlt =>
          exact cleanHtml_ne_empty _ '<' (List.elem_iff.mp hlt) (by decide)
        next hlt =>
          refine cleanHtml_ne_empty _ '<' ?_ (by decide)
          rw [String.data_append, String.data_append]
          exact List.mem_append.mpr
            (Or.inl (List.mem_append.mpr (Or.inl (by decide))))
      · refine cleanHtml_ne_empty _ '<' ?_ (by decide)
        show '<' ∈ ("<p>Contenu non disponible</p>" : String).data
        decide
    · rintro s rfl ⟨c, hc, hns⟩
      exact cleanHtml_ne_empty _ c hc hns

/-- C3 witness: the theorem applied to an entry whose fetch failed and
whose feed carries no usable summary. -/
theorem C3_witness : c3WitnessRecord.content ≠ "" :=
  (C3_content_control_free noSummaryEntry none c3WitnessRecord
    (by decide)).2.1 rfl

/-- C6 counterexample: a summary of sixty spaces is non-empty with raw
length above 50, so the fallback chooses `rss_summary` — although the
summary strips to the empty string, so the claim's
length-after-stripping condition would demand `unavailable`. -/
theorem C6_counterexample_no_stripping :
    ((processEntry spacesEntry none).map (fun r => r.method)) =
      some "rss_summary" ∧
    pyStrip spaces60 = "" :=
  ⟨by decide, by decide⟩

/-- C6 amended: when fetching or extraction fails for a linked entry,
the method is `rss_summary` iff the raw feed summary (summary, else
description, else empty) is non-empty with raw length above 50 — no
stripping is applied to it; the content is then the control-sanitised
summary, wrapped in a paragraph exactly when the summary contains no
`<`; otherwise the method is `unavailable` and the content is the
placeholder string. -/
theorem C6_fallback_rule (e : FeedEntry) (r : EntryRecord)
    (h : processEntry e none = some r) :
    (r.method = "rss_summary" ↔
      (rawSummaryOf e ≠ "" ∧ 50 < (rawSummaryOf e).length)) ∧
    ((rawSummaryOf e ≠ "" ∧ 50 < (rawSummaryOf e).length) →
      r.content = cleanHtml
        (if (rawSummaryOf e).data.contains '<' then rawSummaryOf e
         else "<p>" ++ rawSummaryOf e ++ "</p>")) ∧
    (¬(rawSummaryOf e ≠ "" ∧ 50 < (rawSummaryOf e).length) →
      r.method = "unavailable" ∧
      r.content = "<p>Contenu non disponible</p>") := by
  simp only [processEntry] at h
  split at h
  · cases h
  · rw [Option.some.injEq] at h
    subst h
    simp only [processPre, fallbackPre]
    split
    next hcond =>
      have hc : rawSummaryOf e ≠ "" ∧ 50 < (rawSummaryOf e).length := by
        simpa using hcond
      refine ⟨by simp [hc], fun _ => rfl, fun hn => absurd hc hn⟩
    next hcond =>
      have hc : ¬(rawSummaryOf e ≠ "" ∧ 50 < (rawSummaryOf e).length) := by
        simpa using hcond
      refine ⟨?_, fun hx => absurd hx hc, fun _ =>
        ⟨rfl, show cleanHtml "<p>Contenu non disponible</p>" =
          "<p>Contenu non disponible</p>" by decide⟩⟩
      constructor
      · intro hm
        exact absurd hm
          (show ¬("unavailable" : String) = "rss_summary" by decide)
      · intro hx
        exact absurd hx hc

/-- C6 witness: the theorem applied to the sixty-space summary. -/
theorem C6_witness :
    c6WitnessRecord.method = "rss_summary" ↔
      (rawSummaryOf spacesEntry ≠ "" ∧
        50 < (rawSummaryOf spacesEntry).length) :=
  (C6_fallback_rule spacesEntry c6WitnessRecord (by decide)).1

/-- The code-point order is asymmetric. -/
theorem natListLt_asymm : ∀ x y : List Nat, natListLt x y = true →
    natListLt y x = true → False
  | [], [], h1, _ => by simp [natListLt] at h1
  | [], _ :: _, _, h2 => by simp [natListLt] at h2
  | _ :: _, [], h1, _ => by simp [natListLt] at h1
  | a :: as, b :: bs, h1, h2 => by
      simp only [natListLt, Bool.or_eq_true, Bool.and_eq_true,
        decide_eq_true_eq, beq_iff_eq] at h1 h2
      rcases h1 with h1 | ⟨hab, h1⟩ <;> rcases h2 with h2 | ⟨hba, h2⟩
      · omega
      · omega
      · omega
      · exact natListLt_asymm as bs h1 h2

/-- The complement of the code-point order is transitive. -/
theorem natListLt_le_trans : ∀ a b c : List Nat, natListLt b a = false →
    natListLt c b = false → natListLt c a = false
  | [], b, c, h1, h2 => by cases c <;> simp [natListLt]
  | a0 :: as, b, c, h1, h2 => by
      cases b with
      | nil => simp [natListLt] at h1
      | cons b0 bs =>
          cases c with
          | nil => simp [natListLt] at h2
          | cons c0 cs =>
              simp only [natListLt, Bool.or_eq_false_iff,
                Bool.and_eq_false_iff, decide_eq_false_iff_not,
                beq_eq_false_iff_ne, ne_eq] at h1 h2 ⊢
              obtain ⟨hb1, hb2⟩ := h1
              obtain ⟨hc1, hc2⟩ := h2
              constructor
              · omega
              · rcases hb2 with hb2 | hb2
                · left; omega
                · rcases hc2 with hc2 | hc2
                  · left; omega
                  · by_cases hca : c0 = a0
                    · right
                      exact natListLt_le_trans as bs cs hb2 hc2
                    · left; exact hca

/-- Inserting keeps the list a permutation of the cons. -/
theorem tagInsert_perm (x : String) : ∀ l, (tagInsert x l).Perm (x :: l)
  | [] => List.Perm.refl _
  | y :: ys => by
      unfold tagInsert
      split
      · exact (((tagInsert_perm x ys).cons y).trans (List.Perm.swap x y ys))
      · exact List.Perm.refl _

/-- The insertion sort permutes its input. -/
theorem tagSort_perm : ∀ l, (tagSort l).Perm l
  | [] => List.Perm.refl _
  | x :: xs => by
      unfold tagSort
      exact (tagInsert_perm x (tagSort xs)).trans ((tagSort_perm xs).cons x)

/-- Insertion preserves sortedness under `strLe`. -/
theorem tagInsert_pairwise (x : String) : ∀ l, l.Pairwise strLe →
    (tagInsert x l).Pairwise strLe
  | [], _ => by simp [tagInsert]
  | y :: ys, hp => by
      obtain ⟨hy, hys⟩ := List.pairwise_cons.mp hp
      unfold tagInsert
      split
      next hlt =>
        refine List.pairwise_cons.mpr ⟨?_, tagInsert_pairwise x ys hys⟩
        intro z hz
        rcases List.mem_cons.mp ((tagInsert_perm x ys).mem_iff.mp hz)
          with hz | hz
        · subst hz
          show natListLt (strKey z) (strKey y) = false
          by_cases hxy : natListLt (strKey z) (strKey y) = true
          · exact absurd (natListLt_asymm _ _ hlt hxy) (fun f => f)
          · exact Bool.eq_false_iff.mpr hxy
        · exact hy z hz
      next hlt =>
        have hxy : strLe x y := Bool.eq_false_iff.mpr hlt
        refine List.pairwise_cons.mpr ⟨?_, hp⟩
        intro z hz
        rcases List.mem_cons.mp hz with hz | hz
        · subst hz; exact hxy
        · exact natListLt_le_trans _ _ _ hxy (hy z hz)

/-- The insertion sort sorts under `strLe`. -/
theorem tagSort_pairwise : ∀ l, (tagSort l).Pairwise strLe
  | [] => List.Pairwise.nil
  | x :: xs => tagInsert_pairwise x (tagSort xs) (tagSort_pairwise xs)

/-- Dropping initial whitespace cannot lengthen a list. -/
theorem length_dropWhileLe (p : Char → Bool) :
    ∀ l : List Char, (l.dropWhile p).length ≤ l.length
  | [] => Nat.le_refl _
  | c :: cs => by
      simp only [List.dropWhile]
      split
      · exact Nat.le_trans (length_dropWhileLe p cs) (Nat.le_succ _)
      · exact Nat.le_refl _

/-- `pyStrip` cannot lengthen a string. -/
theorem pyStrip_length_le (s : String) : (pyStrip s).length ≤ s.length := by
  unfold pyStrip
  rw [String.length_mk]
  calc ((s.data.dropWhile isPySpace).reverse.dropWhile isPySpace).reverse.length
      = ((s.data.dropWhile isPySpace).reverse.dropWhile isPySpace).length := by
        rw [List.length_reverse]
    _ ≤ (s.data.dropWhile isPySpace).reverse.length :=
        length_dropWhileLe _ _
    _ = (s.data.dropWhile isPySpace).length := by rw [List.length_reverse]
    _ ≤ s.data.length := length_dropWhileLe _ _

/-- A tag surviving `clean_tag` has length between 1 and 50: the upper
bound carries over from the pre-strip check, the lower bound only from
non-emptiness (stripping special characters can shrink a tag below the
checked minimum of 3). -/
theorem cleanTag_length (raw t : String) (h : cleanTag raw = some t) :
    1 ≤ t.length ∧ t.length ≤ 50 := by
  simp only [cleanTag] at h
  split at h
  · cases h
  · split at h
    · cases h
    next hlen =>
      split at h
      · cases h
      next hne =>
        rw [Option.some.injEq] at h
        subst h
        have hb : (pyStrip raw).length ≤ 50 := by
          rcases Nat.lt_or_ge 50 (pyStrip raw).length with hgt | hle
          · exact absurd (by simp [hgt]) hlen
          · exact hle
        constructor
        · have hd : (pyStrip (String.mk ((pyStrip raw).data.filter isTagKeepChar))).data ≠ [] := by
            intro hd
            exact hne (String.ext hd)
          exact List.length_pos.mpr hd
        · have h1 : (pyStrip (String.mk ((pyStrip raw).data.filter isTagKeepChar))).length ≤
              (String.mk ((pyStrip raw).data.filter isTagKeepChar)).length :=
            pyStrip_length_le _
          have h2 : (String.mk ((pyStrip raw).data.filter isTagKeepChar)).length ≤
              (pyStrip raw).length := by
            rw [String.length_mk]
            exact List.length_filter_le isTagKeepChar (pyStrip raw).data
          omega

/-- C4 counterexample: the fallback path stores the raw RSS categories
unchanged — here a duplicated two-character tag, violating
deduplication and the lower length bound — and even the successful
extraction path can emit a tag of length 2, because `clean_tag` checks
the length before stripping special characters. -/
theorem C4_counterexample_tags_unnormalized :
    ((processEntry dupShortEntry none).map (fun r => r.tags)) =
      some ["xy", "xy"] ∧
    extractTags bangDoc [] 10 = ["ab"] ∧
    ¬ (3 ≤ ("xy" : String).length) ∧
    ¬ List.Nodup ["xy", "xy"] ∧
    ¬ (3 ≤ ("ab" : String).length) :=
  ⟨by decide, by decide, by decide, by decide, by decide⟩

/-- C4 amended: the tag list produced by a successful `extract_tags`
run is sorted ascending in code-point order, deduplicated, capped at
the configured maximum, and each tag has length in `[1, 50]` (the
lower bound 3 only holds before special-character stripping); on the
fallback path the attached tag list is the raw RSS category list,
unchanged. -/
theorem C4_tag_invariants (doc : TagDoc) (rss : List String) (maxTags : Nat) :
    (extractTags doc rss maxTags).Pairwise strLe ∧
    (extractTags doc rss maxTags).Nodup ∧
    (extractTags doc rss maxTags).length ≤ maxTags ∧
    (∀ t ∈ extractTags doc rss maxTags, 1 ≤ t.length ∧ t.length ≤ 50) ∧
    (∀ e r, processEntry e none = some r → r.tags = e.tagTerms) := by
  refine ⟨?_, ?_, ?_, ?_, ?_⟩
  · exact ((tagSort_pairwise _).sublist (List.take_sublist _ _))
  · exact List.Nodup.sublist (List.take_sublist _ _)
      (((tagSort_perm _).symm).nodup (List.nodup_dedup _))
  · exact List.length_take_le _ _
  · intro t ht
    have h1 : t ∈ tagSort (extractTagsCleaned doc rss).dedup :=
      (List.take_sublist _ _).subset ht
    have h2 : t ∈ (extractTagsCleaned doc rss).dedup :=
      (tagSort_perm _).subset h1
    have h3 : t ∈ extractTagsCleaned doc rss := List.dedup_subset _ h2
    obtain ⟨raw, _, hraw⟩ := List.mem_filterMap.mp h3
    exact cleanTag_length raw t hraw
  · intro e r h
    simp only [processEntry] at h
    split at h
    · cases h
    · rw [Option.some.injEq] at h
      subst h
      show (processPre e none).tags = e.tagTerms
      simp only [processPre, fallbackPre]
      split <;> rfl

/-- C4 witness: the theorem applied to the fallback of the duplicated
two-character categories and to the surviving short tag `"ab"`. -/
theorem C4_witness :
    c4WitnessRecord.tags = dupShortEntry.tagTerms ∧
    (1 ≤ ("ab" : String).length ∧ ("ab" : String).length ≤ 50) :=
  ⟨(C4_tag_invariants bangDoc [] 10).2.2.2.2 dupShortEntry c4WitnessRecord
      (by decide),
   (C4_tag_invariants bangDoc [] 10).2.2.2.1 "ab" (by decide)⟩

/-- Splitting a list of scheme characters off a colon. -/
theorem dropTake_app_of_all (p : Char → Bool) (x : Char) (r : List Char)
    (hx : p x = false) :
    ∀ l : List Char, (∀ c ∈ l, p c = true) →
      (l ++ x :: r).dropWhile p = x :: r ∧ (l ++ x :: r).takeWhile p = l
  | [], _ => by simp [List.dropWhile, List.takeWhile, hx]
  | c :: cs, hall => by
      have hc : p c = true := hall c (List.mem_cons_self c cs)
      have ih := dropTake_app_of_all p x r hx cs
        (fun d hd => hall d (List.mem_cons_of_mem c hd))
      simp [List.dropWhile, List.takeWhile, hc, ih.1, ih.2]

/-- A URL whose text is a valid scheme, a colon and a remainder has a
scheme. -/
theorem hasScheme_of_valid (s : String) (hv : validScheme s = true)
    (u : String) (rest : List Char) (hd : u.data = s.data ++ ':' :: rest) :
    hasScheme u = true := by
  simp only [validScheme] at hv
  have hcase : ∃ c cs, s.data = c :: cs := by
    cases hs : s.data with
    | nil => rw [hs] at hv; cases hv
    | cons c cs => exact ⟨c, cs, rfl⟩
  obtain ⟨c, cs, hs⟩ := hcase
  simp only [hs] at hv
  rw [Bool.and_eq_true] at hv
  have halpha : c.isAlpha = true := hv.1
  have hall : ∀ d ∈ s.data, isSchemeChar d = true := by
    rw [hs]
    exact List.all_eq_true.mp hv.2
  have hcolon : isSchemeChar ':' = false := by decide
  have hsplit := dropTake_app_of_all isSchemeChar ':' rest hcolon s.data hall
  simp only [hasScheme, splitScheme, hd, hsplit.1, hsplit.2]
  rw [hs]
  simp [halpha]

/-- Inversion of `splitScheme`: the parsed scheme is valid and the URL
decomposes as scheme, colon, remainder. -/
theorem validScheme_of_splitScheme (u s : String) (r : String)
    (h : splitScheme u = some (s, r)) :
    validScheme s = true ∧ u.data = s.data ++ ':' :: r.data := by
  simp only [splitScheme] at h
  split at h
  next rest heq =>
    split at h
    next c cs hpre =>
      split at h
      next halpha =>
        rw [Option.some.injEq, Prod.mk.injEq] at h
        obtain ⟨hs, hr⟩ := h
        subst hs
        subst hr
        constructor
        · simp only [validScheme, hpre]
          rw [Bool.and_eq_true]
          refine ⟨halpha, List.all_eq_true.mpr (fun d hd => ?_)⟩
          rw [← hpre] at hd
          exact List.mem_takeWhile_imp hd
        · show u.data = _
          conv_lhs => rw [← List.takeWhile_append_dropWhile isSchemeChar u.data]
          rw [heq, hpre]
      next => cases h
    next => cases h
  next => cases h

/-- Appending something non-empty cannot produce the empty string. -/
theorem append_ne_empty_right (s t : String) (ht : t ≠ "") : s ++ t ≠ "" := by
  intro h
  apply ht
  have h2 := congrArg String.data h
  rw [String.data_append] at h2
  exact String.ext (List.append_eq_nil.mp h2).2

/-- The scheme of a URL that has one is a non-empty valid scheme. -/
theorem urlScheme_spec (base : String) (hb : hasScheme base = true) :
    validScheme (urlScheme base) = true ∧ urlScheme base ≠ "" := by
  obtain ⟨⟨s, r⟩, hsr⟩ := Option.isSome_iff_exists.mp hb
  have hv := validScheme_of_splitScheme base s r hsr
  have hsch : urlScheme base = s := by simp [urlScheme, hsr]
  rw [hsch]
  refine ⟨hv.1, ?_⟩
  intro h0
  rw [h0] at hv
  exact absurd hv.1 (by decide)

/-- Prefixing the base scheme and a colon yields an absolute URL. -/
theorem hasScheme_scheme_append (base : String) (hb : hasScheme base = true)
    (rest : String) :
    hasScheme (urlScheme base ++ ":" ++ rest) = true := by
  refine hasScheme_of_valid (urlScheme base) (urlScheme_spec base hb).1 _
    rest.data ?_
  rw [String.data_append, String.data_append]
  simp

/-- Prefixing `scheme://netloc` of an absolute base yields an absolute
URL. -/
theorem hasScheme_root_append (base : String) (hb : hasScheme base = true)
    (x : String) :
    hasScheme ((urlScheme base ++ "://" ++ urlNetloc base) ++ x) = true := by
  refine hasScheme_of_valid (urlScheme base) (urlScheme_spec base hb).1 _
    ('/' :: '/' :: ((urlNetloc base).data ++ x.data)) ?_
  rw [String.data_append, String.data_append, String.data_append]
  show _ ++ [':', '/', '/'] ++ _ ++ _ = _
  simp

/-- `urljoin` against an absolute base produces an absolute URL. -/
theorem pyUrljoin_hasScheme (base url : String) (hb : hasScheme base = true) :
    hasScheme (pyUrljoin base url) = true := by
  have hbs := (urlScheme_spec base hb).2
  simp only [pyUrljoin]
  split_ifs with h1 h2 h3 h4 h5 <;>
    first
      | exact h1
      | exact absurd (by assumption : urlScheme base = "") hbs
      | exact hasScheme_scheme_append base hb url
      | exact hasScheme_root_append base hb url
      | (rw [String.append_assoc]
         exact hasScheme_root_append base hb _)

/-- `urljoin` of a non-empty URL is non-empty. -/
theorem pyUrljoin_ne_empty (base url : String) (hu : url ≠ "") :
    pyUrljoin base url ≠ "" := by
  simp only [pyUrljoin]
  split_ifs <;> first | exact hu | exact append_ne_empty_right _ _ hu

/-- `make_absolute_url` of a truthy URL is truthy. -/
theorem makeAbs_ne (v base : String) (hv : v ≠ "") :
    makeAbsoluteUrl v base ≠ "" := by
  unfold makeAbsoluteUrl
  rw [if_neg hv]
  exact pyUrljoin_ne_empty base v hv

/-- `make_absolute_url` of a truthy URL against an absolute base is
absolute. -/
theorem makeAbs_hasScheme (v base : String) (hb : hasScheme base = true)
    (hv : v ≠ "") : hasScheme (makeAbsoluteUrl v base) = true := by
  unfold makeAbsoluteUrl
  rw [if_neg hv]
  exact pyUrljoin_hasScheme base v hb

/-- A truthy `make_absolute_url` result against an absolute base is
absolute. -/
theorem makeAbs_hasScheme_of_ne (v base : String) (hb : hasScheme base = true)
    (hne : makeAbsoluteUrl v base ≠ "") :
    hasScheme (makeAbsoluteUrl v base) = true := by
  by_cases hv : v = ""
  · subst hv
    exact absurd rfl hne
  · exact makeAbs_hasScheme v base hb hv

theorem imgTruthy_none : imgTruthy none = false := by decide

theorem imgTruthy_some (v : String) : imgTruthy (some v) = true ↔ v ≠ "" := by
  simp [imgTruthy]

theorem artStep_truthy (doc : ImgDoc) (baseUrl : String) (prev : Option String)
    (h : imgTruthy prev = true) : articleImgStep doc baseUrl prev = prev := by
  simp [articleImgStep, h]

theorem artStep_none_eq (doc : ImgDoc) (baseUrl : String) :
    articleImgStep doc baseUrl none = codeContainerImg doc baseUrl := by
  simp only [articleImgStep, codeContainerImg, imgTruthy_none]
  rfl

theorem articleChain_eq (doc : ImgDoc) (baseUrl : String) :
    articleImgStep doc baseUrl
      (twitterImageStep doc baseUrl (ogImageStep doc baseUrl)) =
    codeArticleImage doc baseUrl := by
  rcases hog : doc.ogImage with _ | c
  · simp only [codeArticleImage, articleImageChain, ogImageStep, hog,
      twitterImageStep, articleImageChainTwitter, imgTruthy_none,
      Bool.false_eq_true, if_false]
    rcases htw : doc.twitterImage with _ | d
    · exact artStep_none_eq doc baseUrl
    · by_cases hd : d = ""
      · subst hd
        simp only [ne_eq, not_true_eq_false, if_false]
        exact artStep_none_eq doc baseUrl
      · simp only [ne_eq, hd, not_false_eq_true, if_true]
        exact artStep_truthy doc baseUrl _ ((imgTruthy_some _).mpr (makeAbs_ne d baseUrl hd))
  · by_cases hc : c = ""
    · subst hc
      simp only [codeArticleImage, articleImageChain, ogImageStep, hog,
        articleImageChainTwitter, ne_eq, not_true_eq_false, if_false,
        twitterImageStep, imgTruthy_none, Bool.false_eq_true]
      rcases htw : doc.twitterImage with _ | d
      · exact artStep_none_eq doc baseUrl
      · by_cases hd : d = ""
        · subst hd
          simp only [ne_eq, not_true_eq_false, if_false]
          exact artStep_none_eq doc baseUrl
        · simp only [ne_eq, hd, not_false_eq_true, if_true]
          exact artStep_truthy doc baseUrl _
            ((imgTruthy_some _).mpr (makeAbs_ne d baseUrl hd))
    · have htr : imgTruthy (some (makeAbsoluteUrl c baseUrl)) = true :=
        (imgTruthy_some _).mpr (makeAbs_ne c baseUrl hc)
      simp only [codeArticleImage, articleImageChain, ogImageStep, hog, ne_eq,
        hc, not_false_eq_true, if_true, twitterImageStep, htr]
      exact artStep_truthy doc baseUrl _ htr



theorem ogImageStep_abs (doc : ImgDoc) (baseUrl : String)
    (hb : hasScheme baseUrl = true) : SomeAbs (ogImageStep doc baseUrl) := by
  intro u h
  simp only [ogImageStep] at h
  rcases hog : doc.ogImage with _ | c <;> simp only [hog] at h
  · cases h
  · split at h
    next hc =>
      rw [Option.some.injEq] at h
      subst h
      exact ⟨makeAbs_ne c baseUrl hc, makeAbs_hasScheme c baseUrl hb hc⟩
    next => cases h

theorem ogLogoStep_abs (doc : ImgDoc) (baseUrl : String)
    (hb : hasScheme baseUrl = true) : SomeAbs (ogLogoStep doc baseUrl) := by
  intro u h
  simp only [ogLogoStep] at h
  rcases hog : doc.ogLogo with _ | c <;> simp only [hog] at h
  · cases h
  · split at h
    next hc =>
      rw [Option.some.injEq] at h
      subst h
      exact ⟨makeAbs_ne c baseUrl hc, makeAbs_hasScheme c baseUrl hb hc⟩
    next => cases h

theorem appleIconStep_abs (doc : ImgDoc) (baseUrl : String)
    (hb : hasScheme baseUrl = true) : SomeAbs (appleIconStep doc baseUrl) := by
  intro u h
  simp only [appleIconStep] at h
  rcases hog : doc.appleIconHref with _ | c <;> simp only [hog] at h
  · cases h
  · split at h
    next hc =>
      rw [Option.some.injEq] at h
      subst h
      exact ⟨makeAbs_ne c baseUrl hc, makeAbs_hasScheme c baseUrl hb hc⟩
    next => cases h

theorem twitterImageStep_abs (doc : ImgDoc) (baseUrl : String)
    (prev : Option String) (hb : hasScheme baseUrl = true)
    (hp : SomeAbs prev) : SomeAbs (twitterImageStep doc baseUrl prev) := by
  intro u h
  simp only [twitterImageStep] at h
  split at h
  · exact hp u h
  · rcases htw : doc.twitterImage with _ | d <;> simp only [htw] at h
    · exact hp u h
    · split at h
      next hd =>
        rw [Option.some.injEq] at h
        subst h
        exact ⟨makeAbs_ne d baseUrl hd, makeAbs_hasScheme d baseUrl hb hd⟩
      next => exact hp u h

theorem articleImgStep_abs (doc : ImgDoc) (baseUrl : String)
    (prev : Option String) (hb : hasScheme baseUrl = true)
    (hp : SomeAbs prev) : SomeAbs (articleImgStep doc baseUrl prev) := by
  intro u h
  simp only [articleImgStep] at h
  split at h
  · exact hp u h
  · rcases hhd : doc.articleOrMainImgSrcs.head? with _ | src <;>
      simp only [hhd] at h
    · exact hp u h
    · split at h
      next hcond =>
        rw [Bool.and_eq_true] at hcond
        have hsrc : src ≠ "" := of_decide_eq_true hcond.1
        rw [Option.some.injEq] at h
        subst h
        exact ⟨makeAbs_ne src baseUrl hsrc,
          makeAbs_hasScheme src baseUrl hb hsrc⟩
      next => exact hp u h

theorem iconStep_abs (doc : ImgDoc) (baseUrl : String)
    (prev : Option String) (hb : hasScheme baseUrl = true)
    (hp : SomeAbs prev) : SomeAbs (iconStep doc baseUrl prev) := by
  intro u h
  simp only [iconStep] at h
  split at h
  · exact hp u h
  · rcases hic : doc.iconHref with _ | d <;> simp only [hic] at h
    · exact hp u h
    · split at h
      next hd =>
        rw [Option.some.injEq] at h
        subst h
        exact ⟨makeAbs_ne d baseUrl hd, makeAbs_hasScheme d baseUrl hb hd⟩
      next => exact hp u h

theorem faviconDefault_abs (baseUrl : String) (prev : Option String)
    (hb : hasScheme baseUrl = true) (hp : SomeAbs prev) :
    SomeAbs (faviconDefaultStep baseUrl prev) ∧
    imgTruthy (faviconDefaultStep baseUrl prev) = true := by
  constructor
  · intro u h
    simp only [faviconDefaultStep] at h
    split at h
    · exact hp u h
    · rw [Option.some.injEq] at h
      subst h
      exact ⟨append_ne_empty_right _ _ (by decide),
        hasScheme_root_append baseUrl hb _⟩
  · simp only [faviconDefaultStep]
    split
    next ht => exact ht
    next =>
      exact (imgTruthy_some _).mpr (append_ne_empty_right _ _ (by decide))

theorem headerLogoStep_absW (doc : ImgDoc) (baseUrl : String)
    (prev : Option String) (hb : hasScheme baseUrl = true)
    (hp : SomeAbsW prev) : SomeAbsW (headerLogoStep doc baseUrl prev) := by
  intro u h hu
  simp only [headerLogoStep] at h
  split at h
  · exact hp u h hu
  · rcases hh : doc.headerLogoImgSrc with _ | src <;> simp only [hh] at h
    · exact hp u h hu
    · rw [Option.some.injEq] at h
      subst h
      exact makeAbs_hasScheme_of_ne src baseUrl hb hu

theorem logoFallback_abs (l f : Option String) (hl : SomeAbsW l)
    (hf : SomeAbs f) (hft : imgTruthy f = true) :
    ∀ u, logoFallbackStep l f = some u → hasScheme u = true := by
  intro u h
  simp only [logoFallbackStep] at h
  split at h
  · exact (hf u h).2
  next hcond =>
    have hlt : imgTruthy l = true := by
      by_cases hx : imgTruthy l = true
      · exact hx
      · exfalso
        apply hcond
        have hfalse : imgTruthy l = false := Bool.eq_false_iff.mpr hx
        simp [hfalse, hft]
    cases l with
    | none => cases h
    | some v =>
        rw [Option.some.injEq] at h
        subst h
        exact hl _ rfl ((imgTruthy_some _).mp hlt)

/-- C8 counterexample: with no image metas and an article container
holding a blocked first image (`logo.png`) followed by an allowed one
(`photo.jpg`), the code yields no article image at all, while the
specification's reading — the first image whose `src` avoids the
blocked words — yields the second image. -/
theorem C8_counterexample_blocked_head_img :
    (extractImages imgDocCx "http://ex.com/a/").articleImage = none ∧
    specArticleImage imgDocCx "http://ex.com/a/" =
      some "http://ex.com/a/photo.jpg" ∧
    (extractImages imgDocCx "http://ex.com/a/").articleImage ≠
      specArticleImage imgDocCx "http://ex.com/a/" :=
  ⟨by decide, by decide, by decide⟩

/-- C8 amended: the article image is resolved as Open Graph meta, then
Twitter Card meta, then the **head** of the container's image list,
kept only when its `src` is truthy and avoids
icon/logo/avatar/emoji — a blocked first image yields no container
image, with no fallthrough to later images; and when the base URL is
absolute (has a scheme), every returned image URL — article image,
site logo, favicon — is absolute. -/
theorem C8_image_resolution (doc : ImgDoc) (baseUrl : String) :
    (extractImages doc baseUrl).articleImage = codeArticleImage doc baseUrl ∧
    (hasScheme baseUrl = true →
      (∀ u, (extractImages doc baseUrl).articleImage = some u →
        hasScheme u = true) ∧
      (∀ u, (extractImages doc baseUrl).siteLogo = some u →
        hasScheme u = true) ∧
      (∀ u, (extractImages doc baseUrl).favicon = some u →
        hasScheme u = true)) := by
  constructor
  · exact articleChain_eq doc baseUrl
  · intro hb
    have ha : SomeAbs (articleImgStep doc baseUrl
        (twitterImageStep doc baseUrl (ogImageStep doc baseUrl))) :=
      articleImgStep_abs doc baseUrl _ hb
        (twitterImageStep_abs doc baseUrl _ hb (ogImageStep_abs doc baseUrl hb))
    have hf := faviconDefault_abs baseUrl
      (iconStep doc baseUrl (appleIconStep doc baseUrl)) hb
      (iconStep_abs doc baseUrl _ hb (appleIconStep_abs doc baseUrl hb))
    have hl : SomeAbsW (headerLogoStep doc baseUrl (ogLogoStep doc baseUrl)) :=
      headerLogoStep_absW doc baseUrl _ hb
        (fun u h hu => (ogLogoStep_abs doc baseUrl hb u h).2)
    exact ⟨fun u h => (ha u h).2,
      logoFallback_abs _ _ hl hf.1 hf.2,
      fun u h => (hf.1 u h).2⟩

/-- C8 witness: the theorem applied to the counterexample page and an
absolute base URL; the synthesized favicon is an absolute URL. -/
theorem C8_witness :
    (extractImages imgDocCx "http://ex.com/a/").articleImage =
      codeArticleImage imgDocCx "http://ex.com/a/" ∧
    hasScheme "http://ex.com/favicon.ico" = true :=
  ⟨(C8_image_resolution imgDocCx "http://ex.com/a/").1,
   ((C8_image_resolution imgDocCx "http://ex.com/a/").2 (by decide)).2.2
     "http://ex.com/favicon.ico" (by decide)⟩

end RssFeed
